import Mathlib

/-!
Formal model of the basilisk-escrow program (hardened variant under
`programs/basilisk-escrow/src/`), shallowly embedded in Lean 4.

Identities (Solana `Pubkey`) are modelled as natural numbers; token balances
as natural numbers with explicit `u64`/`u128`/`i64` bounds where the source
uses checked arithmetic.  Anchor account constraints that fire before a
handler body (`has_one`, `constraint = ... @ Err`) are modelled as leading
checks of the corresponding operation; PDA-seed constraints, which pin the
accounts to the job's own derived addresses, are modelled by identification:
the operation acts directly on the job's own escrow holding and the proper
parties' payout accounts.  A failing operation returns `Except.error` and
the caller keeps the unchanged state, mirroring the all-or-nothing abort of
a failed Solana transaction.
-/

namespace BasiliskEscrow

/-- Solana public key, abstracted to a natural number. -/
abbrev Pubkey := Nat

/-- Rust `Pubkey::default()`, the all-zero key marking an unassigned agent. -/
def pubkeyDefault : Pubkey := 0

/-- Modulus of the `u64` type. -/
def U64_MOD : Nat := 2 ^ 64

/-- Modulus of the `u128` type. -/
def U128_MOD : Nat := 2 ^ 128

/-- Smallest `i64` value. -/
def I64_MIN : Int := -(2 ^ 63)

/-- One more than the largest `i64` value (exclusive upper bound). -/
def I64_TOP : Int := 2 ^ 63

/-- From `state.rs`: maximum byte length of `job_id`. -/
def MAX_JOB_ID_LEN : Nat := 36

/-- From `state.rs`: maximum byte length of `description`. -/
def MAX_DESCRIPTION_LEN : Nat := 200

/-- From `state.rs`: maximum byte length of `deliverable`. -/
def MAX_DELIVERABLE_LEN : Nat := 500

/-- From `state.rs`, `JobStatus`: the seven lifecycle states of a job. -/
inductive JobStatus where
  | Open
  | InProgress
  | UnderReview
  | Completed
  | Cancelled
  | Disputed
  | Resolved
deriving DecidableEq, Repr

/-- From `errors.rs`, `EscrowError`.  The `submit_deliverable` handler also
references a `DeadlineExpired` variant, included here. -/
inductive EscrowError where
  | JobNotOpen
  | JobAlreadyTaken
  | InvalidStatus
  | CannotCancel
  | NotDisputed
  | Unauthorized
  | UnauthorizedArbitrator
  | InvalidPercentage
  | InvalidRating
  | InvalidTokenOwner
  | InvalidMint
  | JobIdTooLong
  | DescriptionTooLong
  | DeliverableTooLong
  | ZeroAmount
  | Overflow
  | DeadlineExpired
deriving DecidableEq, Repr

/-- Failure of an instruction: either an `EscrowError` raised by the program,
or a failure of the SPL token `transfer` primitive (insufficient balance in
the source account). -/
inductive TxError where
  | escrow (e : EscrowError)
  | insufficientFunds
deriving DecidableEq, Repr

/-- From `state.rs`, `ProgramConfig`: the global configuration PDA. -/
structure ProgramConfig where
  admin : Pubkey
  arbitrator : Pubkey
  bump : Nat
deriving DecidableEq, Repr

/-- From `state.rs`, `Job`: the per-job escrow record.  The three PDA bump seeds
are derivation mechanics with no behavioural content and are not modelled. -/
structure Job where
  job_id : String
  requester : Pubkey
  agent : Pubkey
  amount : Nat
  description : String
  status : JobStatus
  created_at : Int
  deadline : Int
  deliverable : String
  disputed : Bool
  rating : Nat
  mint : Pubkey
deriving DecidableEq, Repr

/-- A job together with the token balances its instructions touch: the
escrow holding (PDA token account), the agent's payout account, and the
requester's payout account. -/
structure JobWorld where
  job : Job
  escrow : Nat
  agentTok : Nat
  requesterTok : Nat
deriving DecidableEq, Repr

/-- Rust `u128::checked_mul`. -/
def checkedMulU128 (a b : Nat) : Option Nat :=
  if a * b < U128_MOD then some (a * b) else none

/-- Rust `u128::checked_div`: fails only on division by zero. -/
def checkedDivU128 (a b : Nat) : Option Nat :=
  if b = 0 then none else some (a / b)

/-- Rust `u64::checked_sub`. -/
def checkedSubU64 (a b : Nat) : Option Nat :=
  if b ≤ a then some (a - b) else none

/-- Rust `i64::checked_mul`. -/
def checkedMulI64 (a b : Int) : Option Int :=
  if I64_MIN ≤ a * b ∧ a * b < I64_TOP then some (a * b) else none

/-- Rust `i64::checked_add`. -/
def checkedAddI64 (a b : Int) : Option Int :=
  if I64_MIN ≤ a + b ∧ a + b < I64_TOP then some (a + b) else none

/-- SPL `token::transfer` from a custodial account: moves `amt` units from
`source` to `dest`, failing when the source balance is insufficient. -/
def tokenTransfer (source dest amt : Nat) : Except TxError (Nat × Nat) :=
  if amt ≤ source then Except.ok (source - amt, dest + amt)
  else Except.error TxError.insufficientFunds

/-- One conditional payout leg of `resolve_dispute`: the transfer is skipped
when the computed amount is zero (`if agent_amount > 0` / `if
requester_amount > 0` in the source). -/
def payOut (source dest amt : Nat) : Except TxError (Nat × Nat) :=
  if 0 < amt then tokenTransfer source dest amt
  else Except.ok (source, dest)

/-- The overflow-safe split of `resolve_dispute.rs` lines 37-48:
`agent_amount = ((amount as u128).checked_mul(pct)? .checked_div(100)?) as
u64`, `requester_amount = amount.checked_sub(agent_amount)?`.  The `as u64`
cast truncates modulo `2^64`. -/
def splitAmounts (amount pct : Nat) : Except EscrowError (Nat × Nat) :=
  match checkedMulU128 amount pct with
  | none => Except.error EscrowError.Overflow
  | some p =>
    match checkedDivU128 p 100 with
    | none => Except.error EscrowError.Overflow
    | some q =>
      match checkedSubU64 amount (q % U64_MOD) with
      | none => Except.error EscrowError.Overflow
      | some requesterAmount => Except.ok (q % U64_MOD, requesterAmount)

/-- Result of `create_job`: the fresh job record, the requester's funding
account balance after the escrow deposit, and the new holding's balance. -/
structure CreateResult where
  job : Job
  funding : Nat
  escrow : Nat
deriving DecidableEq, Repr

/-- The `create_job.rs` handler.  `now` is `Clock::get()?.unix_timestamp`;
`funding` is the balance of the requester's (owner- and mint-checked)
funding token account.  Validations run in source order: job-id length,
description length, zero amount, then the checked deadline arithmetic while
the job record is initialised, then the escrow deposit transfer. -/
def createJob (now : Int) (requester mint : Pubkey) (jobId : String)
    (amount : Nat) (description : String) (deadlineDays : Nat)
    (funding : Nat) : Except TxError CreateResult :=
  if jobId.utf8ByteSize ≤ MAX_JOB_ID_LEN then
    if description.utf8ByteSize ≤ MAX_DESCRIPTION_LEN then
      if 0 < amount then
        match checkedMulI64 (deadlineDays : Int) 86400 with
        | none => Except.error (TxError.escrow EscrowError.Overflow)
        | some seconds =>
          match checkedAddI64 now seconds with
          | none => Except.error (TxError.escrow EscrowError.Overflow)
          | some dl =>
            match tokenTransfer funding 0 amount with
            | Except.error e => Except.error e
            | Except.ok (funding', escrowBal) =>
              Except.ok
                { job :=
                    { job_id := jobId
                      requester := requester
                      agent := pubkeyDefault
                      amount := amount
                      description := description
                      status := JobStatus.Open
                      created_at := now
                      deadline := dl
                      deliverable := ""
                      disputed := false
                      rating := 0
                      mint := mint }
                  funding := funding'
                  escrow := escrowBal }
      else Except.error (TxError.escrow EscrowError.ZeroAmount)
    else Except.error (TxError.escrow EscrowError.DescriptionTooLong)
  else Except.error (TxError.escrow EscrowError.JobIdTooLong)

/-- The `accept_job.rs` handler: any signer may accept an Open, unassigned job;
it becomes that job's agent. -/
def acceptJob (signer : Pubkey) (job : Job) : Except EscrowError Job :=
  if job.status = JobStatus.Open then
    if job.agent = pubkeyDefault then
      Except.ok { job with agent := signer, status := JobStatus.InProgress }
    else Except.error EscrowError.JobAlreadyTaken
  else Except.error EscrowError.JobNotOpen

/-- From `submit_deliverable.rs`: the Anchor `has_one = agent` constraint
(modelled first, as account validation precedes the handler), then the
handler's combined-length check, status check, and deadline check. -/
def submitDeliverable (now : Int) (signer : Pubkey) (url notes : String)
    (job : Job) : Except EscrowError Job :=
  if signer = job.agent then
    if (url ++ " | " ++ notes).utf8ByteSize ≤ MAX_DELIVERABLE_LEN then
      if job.status = JobStatus.InProgress then
        if now ≤ job.deadline then
          Except.ok { job with deliverable := url ++ " | " ++ notes,
                               status := JobStatus.UnderReview }
        else Except.error EscrowError.DeadlineExpired
      else Except.error EscrowError.InvalidStatus
    else Except.error EscrowError.DeliverableTooLong
  else Except.error EscrowError.Unauthorized

/-- From `approve_and_pay.rs`: `has_one = requester`, then status and rating
checks, then the full-amount transfer from the escrow holding to the
agent's payout account, then `status = Completed` and the rating. -/
def approveAndPay (signer : Pubkey) (rating : Nat) (w : JobWorld) :
    Except TxError JobWorld :=
  if signer = w.job.requester then
    if w.job.status = JobStatus.UnderReview then
      if 1 ≤ rating ∧ rating ≤ 5 then
        match tokenTransfer w.escrow w.agentTok w.job.amount with
        | Except.error e => Except.error e
        | Except.ok (escrow', agentTok') =>
          Except.ok
            { w with
              job := { w.job with status := JobStatus.Completed,
                                  rating := rating }
              escrow := escrow'
              agentTok := agentTok' }
      else Except.error (TxError.escrow EscrowError.InvalidRating)
    else Except.error (TxError.escrow EscrowError.InvalidStatus)
  else Except.error (TxError.escrow EscrowError.Unauthorized)

/-- From `reject_work.rs`: `has_one = requester`, then status check, then the
length-checked rejection annotation, `status = Disputed`, `disputed =
true`. -/
def rejectWork (signer : Pubkey) (reason : String) (job : Job) :
    Except EscrowError Job :=
  if signer = job.requester then
    if job.status = JobStatus.UnderReview then
      if (job.deliverable ++ " | REJECTED: " ++ reason).utf8ByteSize ≤
          MAX_DELIVERABLE_LEN then
        Except.ok { job with status := JobStatus.Disputed,
                             disputed := true,
                             deliverable :=
                               job.deliverable ++ " | REJECTED: " ++ reason }
      else Except.error EscrowError.DeliverableTooLong
    else Except.error EscrowError.InvalidStatus
  else Except.error EscrowError.Unauthorized

/-- From `cancel_job.rs`: `has_one = requester`, then the Open-status check, then
the full refund from the escrow holding to the requester's payout account,
then `status = Cancelled`. -/
def cancelJob (signer : Pubkey) (w : JobWorld) : Except TxError JobWorld :=
  if signer = w.job.requester then
    if w.job.status = JobStatus.Open then
      match tokenTransfer w.escrow w.requesterTok w.job.amount with
      | Except.error e => Except.error e
      | Except.ok (escrow', requesterTok') =>
        Except.ok
          { w with
            job := { w.job with status := JobStatus.Cancelled }
            escrow := escrow'
            requesterTok := requesterTok' }
    else Except.error (TxError.escrow EscrowError.CannotCancel)
  else Except.error (TxError.escrow EscrowError.Unauthorized)

/-- From `resolve_dispute.rs`: the Anchor constraint `arbitrator.key() ==
config.arbitrator @ UnauthorizedArbitrator` (account validation, before the
handler), then the handler's Disputed-status check, percentage bound,
overflow-safe split, the two zero-skipping payout transfers, and finally
`status = Resolved`, `disputed = false`. -/
def resolveDispute (config : ProgramConfig) (signer : Pubkey)
    (agentPercentage : Nat) (w : JobWorld) : Except TxError JobWorld :=
  if signer = config.arbitrator then
    if w.job.status = JobStatus.Disputed then
      if agentPercentage ≤ 100 then
        match splitAmounts w.job.amount agentPercentage with
        | Except.error e => Except.error (TxError.escrow e)
        | Except.ok (agentAmount, requesterAmount) =>
          match payOut w.escrow w.agentTok agentAmount with
          | Except.error e => Except.error e
          | Except.ok (escrow1, agentTok1) =>
            match payOut escrow1 w.requesterTok requesterAmount with
            | Except.error e => Except.error e
            | Except.ok (escrow2, requesterTok2) =>
              Except.ok
                { job := { w.job with status := JobStatus.Resolved,
                                      disputed := false }
                  escrow := escrow2
                  agentTok := agentTok1
                  requesterTok := requesterTok2 }
      else Except.error (TxError.escrow EscrowError.InvalidPercentage)
    else Except.error (TxError.escrow EscrowError.NotDisputed)
  else Except.error (TxError.escrow EscrowError.UnauthorizedArbitrator)

/-- From `update_config.rs`: `has_one = admin`, then each present optional value
replaces the corresponding stored field (arbitrator first, then admin, in
source order). -/
def updateConfig (signer : Pubkey) (newArbitrator newAdmin : Option Pubkey)
    (config : ProgramConfig) : Except EscrowError ProgramConfig :=
  if signer = config.admin then
    let c1 :=
      match newArbitrator with
      | some a => { config with arbitrator := a }
      | none => config
    let c2 :=
      match newAdmin with
      | some a => { c1 with admin := a }
      | none => c1
    Except.ok c2
  else Except.error EscrowError.Unauthorized

end BasiliskEscrow

namespace BasiliskEscrow

/-- Statuses while which the spec requires the escrow holding to carry the
full job amount. -/
def isActiveStatus (s : JobStatus) : Bool :=
  match s with
  | JobStatus.Open | JobStatus.InProgress
  | JobStatus.UnderReview | JobStatus.Disputed => true
  | _ => false

/-- Terminal statuses: Completed, Cancelled, Resolved. -/
def isTerminalStatus (s : JobStatus) : Bool :=
  match s with
  | JobStatus.Completed | JobStatus.Cancelled | JobStatus.Resolved => true
  | _ => false

/-- One successful instruction applied to a job's world.  Instructions that
move no funds (`accept_job`, `submit_deliverable`, `reject_work`) touch only
the job record. -/
inductive Step : JobWorld → JobWorld → Prop where
  | accept (w : JobWorld) (signer : Pubkey) (j' : Job) :
      acceptJob signer w.job = Except.ok j' → Step w { w with job := j' }
  | submit (w : JobWorld) (now : Int) (signer : Pubkey) (url notes : String)
      (j' : Job) :
      submitDeliverable now signer url notes w.job = Except.ok j' →
      Step w { w with job := j' }
  | reject (w : JobWorld) (signer : Pubkey) (reason : String) (j' : Job) :
      rejectWork signer reason w.job = Except.ok j' →
      Step w { w with job := j' }
  | approve (w w' : JobWorld) (signer : Pubkey) (rating : Nat) :
      approveAndPay signer rating w = Except.ok w' → Step w w'
  | cancel (w w' : JobWorld) (signer : Pubkey) :
      cancelJob signer w = Except.ok w' → Step w w'
  | resolve (w w' : JobWorld) (config : ProgramConfig) (signer : Pubkey)
      (pct : Nat) :
      resolveDispute config signer pct w = Except.ok w' → Step w w'

/-- A world freshly produced by a successful `create_job`: the job record
and the escrow holding balance come from the handler; the two payout
accounts may hold anything. -/
def Created (w : JobWorld) : Prop :=
  ∃ now requester mint jobId amount description deadlineDays funding r,
    createJob now requester mint jobId amount description deadlineDays
        funding = Except.ok r ∧
    w.job = r.job ∧ w.escrow = r.escrow

/-- Worlds reachable from a successful `create_job` through successful
instructions. -/
inductive Reachable : JobWorld → Prop where
  | created (w : JobWorld) : Created w → Reachable w
  | step (w w' : JobWorld) : Reachable w → Step w w' → Reachable w'

lemma tokenTransfer_ok {s d a : Nat} {p : Nat × Nat}
    (h : tokenTransfer s d a = Except.ok p) :
    a ≤ s ∧ p.1 = s - a ∧ p.2 = d + a := by
  unfold tokenTransfer at h
  split at h
  · cases h; exact ⟨‹_›, rfl, rfl⟩
  · cases h

lemma payOut_ok {s d a : Nat} {p : Nat × Nat}
    (h : payOut s d a = Except.ok p) :
    p.1 = s - a ∧ p.2 = d + a := by
  unfold payOut at h
  split at h
  · exact (tokenTransfer_ok h).2
  · cases h; constructor <;> omega

lemma splitAmounts_ok {m pct : Nat} {p : Nat × Nat}
    (h : splitAmounts m pct = Except.ok p) :
    p.1 ≤ m ∧ p.1 + p.2 = m := by
  unfold splitAmounts at h
  split at h
  · cases h
  · split at h
    · cases h
    · split at h
      · cases h
      next q r hsub =>
        injection h with h
        subst h
        unfold checkedSubU64 at hsub
        split at hsub
        next hle =>
          injection hsub with hsub
          subst hsub
          exact ⟨hle, by omega⟩
        next => cases hsub

end BasiliskEscrow

namespace BasiliskEscrow

lemma acceptJob_ok {s : Pubkey} {j j' : Job}
    (h : acceptJob s j = Except.ok j') :
    j.status = JobStatus.Open ∧ j.agent = pubkeyDefault ∧
    j' = { j with agent := s, status := JobStatus.InProgress } := by
  unfold acceptJob at h
  split at h
  next hOpen =>
    split at h
    next hAgent =>
      injection h with h
      exact ⟨hOpen, hAgent, h.symm⟩
    next => cases h
  next => cases h

lemma submitDeliverable_ok {now : Int} {s : Pubkey} {url notes : String}
    {j j' : Job} (h : submitDeliverable now s url notes j = Except.ok j') :
    s = j.agent ∧
    (url ++ " | " ++ notes).utf8ByteSize ≤ MAX_DELIVERABLE_LEN ∧
    j.status = JobStatus.InProgress ∧ now ≤ j.deadline ∧
    j' = { j with deliverable := url ++ " | " ++ notes,
                  status := JobStatus.UnderReview } := by
  unfold submitDeliverable at h
  split at h
  next hS =>
    split at h
    next hLen =>
      split at h
      next hSt =>
        split at h
        next hDl =>
          injection h with h
          exact ⟨hS, hLen, hSt, hDl, h.symm⟩
        next => cases h
      next => cases h
    next => cases h
  next => cases h

lemma rejectWork_ok {s : Pubkey} {reason : String} {j j' : Job}
    (h : rejectWork s reason j = Except.ok j') :
    s = j.requester ∧ j.status = JobStatus.UnderReview ∧
    (j.deliverable ++ " | REJECTED: " ++ reason).utf8ByteSize ≤
      MAX_DELIVERABLE_LEN ∧
    j' = { j with status := JobStatus.Disputed, disputed := true,
                  deliverable := j.deliverable ++ " | REJECTED: " ++ reason
         } := by
  unfold rejectWork at h
  split at h
  next hS =>
    split at h
    next hSt =>
      split at h
      next hLen =>
        injection h with h
        exact ⟨hS, hSt, hLen, h.symm⟩
      next => cases h
    next => cases h
  next => cases h

lemma approveAndPay_ok {s : Pubkey} {rating : Nat} {w w' : JobWorld}
    (h : approveAndPay s rating w = Except.ok w') :
    s = w.job.requester ∧ w.job.status = JobStatus.UnderReview ∧
    1 ≤ rating ∧ rating ≤ 5 ∧ w.job.amount ≤ w.escrow ∧
    w' = { w with
           job := { w.job with status := JobStatus.Completed,
                               rating := rating }
           escrow := w.escrow - w.job.amount
           agentTok := w.agentTok + w.job.amount } := by
  unfold approveAndPay at h
  split at h
  next hS =>
    split at h
    next hSt =>
      split at h
      next hR =>
        split at h
        · cases h
        next p1 p2 htr =>
          injection h with h
          obtain ⟨hle, h1, h2⟩ := tokenTransfer_ok htr
          simp only at h1 h2
          subst h1 h2
          exact ⟨hS, hSt, hR.1, hR.2, hle, h.symm⟩
      next => cases h
    next => cases h
  next => cases h

lemma cancelJob_ok {s : Pubkey} {w w' : JobWorld}
    (h : cancelJob s w = Except.ok w') :
    s = w.job.requester ∧ w.job.status = JobStatus.Open ∧
    w.job.amount ≤ w.escrow ∧
    w' = { w with
           job := { w.job with status := JobStatus.Cancelled }
           escrow := w.escrow - w.job.amount
           requesterTok := w.requesterTok + w.job.amount } := by
  unfold cancelJob at h
  split at h
  next hS =>
    split at h
    next hSt =>
      split at h
      · cases h
      next p1 p2 htr =>
        injection h with h
        obtain ⟨hle, h1, h2⟩ := tokenTransfer_ok htr
        simp only at h1 h2
        subst h1 h2
        exact ⟨hS, hSt, hle, h.symm⟩
    next => cases h
  next => cases h

lemma resolveDispute_ok {config : ProgramConfig} {s : Pubkey} {pct : Nat}
    {w w' : JobWorld} (h : resolveDispute config s pct w = Except.ok w') :
    s = config.arbitrator ∧ w.job.status = JobStatus.Disputed ∧ pct ≤ 100 ∧
    ∃ a r, splitAmounts w.job.amount pct = Except.ok (a, r) ∧
      w'.job = { w.job with status := JobStatus.Resolved,
                            disputed := false } ∧
      w'.escrow = w.escrow - a - r ∧ w'.agentTok = w.agentTok + a ∧
      w'.requesterTok = w.requesterTok + r := by
  unfold resolveDispute at h
  split at h
  next hS =>
    split at h
    next hSt =>
      split at h
      next hP =>
        split at h
        · cases h
        next a r hsp =>
          split at h
          · cases h
          next e1 t1 h1 =>
            split at h
            · cases h
            next e2 t2 h2 =>
              injection h with h
              obtain ⟨hq1, hq2⟩ := payOut_ok h1
              obtain ⟨hq3, hq4⟩ := payOut_ok h2
              simp only at hq1 hq2 hq3 hq4
              subst h
              refine ⟨hS, hSt, hP, a, r, hsp, rfl, ?_, ?_, ?_⟩ <;>
                simp only [] <;> omega
      next => cases h
    next => cases h
  next => cases h

lemma createJob_ok_state {now : Int} {requester mint : Pubkey}
    {jobId description : String} {amount deadlineDays funding : Nat}
    {r : CreateResult}
    (h : createJob now requester mint jobId amount description deadlineDays
           funding = Except.ok r) :
    r.job.status = JobStatus.Open ∧ r.escrow = r.job.amount ∧
    r.job.disputed = false := by
  unfold createJob at h
  split at h
  next hId =>
    split at h
    next hDesc =>
      split at h
      next hAmt =>
        split at h
        · cases h
        next seconds hMul =>
          split at h
          · cases h
          next dl hAdd =>
            split at h
            · cases h
            next f1 e1 htr =>
              injection h with h
              obtain ⟨hle, h1, h2⟩ := tokenTransfer_ok htr
              simp only at h1 h2
              subst h
              exact ⟨rfl, by simp [h2], rfl⟩
      next => cases h
    next => cases h
  next => cases h

end BasiliskEscrow

namespace BasiliskEscrow

/-- Core balance invariant, proved by induction over reachability. -/
lemma escrowBalanceAux (w : JobWorld) (h : Reachable w) :
    (isActiveStatus w.job.status = true → w.escrow = w.job.amount) ∧
    (isTerminalStatus w.job.status = true → w.escrow = 0) := by
  induction h with
  | created w hc =>
    obtain ⟨now, rq, mi, jid, amt, de, dd, fu, r, hok, hj, he⟩ := hc
    obtain ⟨hst, hesc, _⟩ := createJob_ok_state hok
    refine ⟨fun _ => ?_, fun ht => ?_⟩
    · rw [hj, he]; exact hesc
    · rw [hj, hst] at ht; cases ht
  | step w w' hr hs ih =>
    cases hs with
    | accept signer j' hok =>
      obtain ⟨hOpen, _, hj'⟩ := acceptJob_ok hok
      subst hj'
      have hw := ih.1 (by rw [hOpen]; rfl)
      exact ⟨fun _ => hw, nofun⟩
    | submit now signer url notes j' hok =>
      obtain ⟨_, _, hSt, _, hj'⟩ := submitDeliverable_ok hok
      subst hj'
      have hw := ih.1 (by rw [hSt]; rfl)
      exact ⟨fun _ => hw, nofun⟩
    | reject signer reason j' hok =>
      obtain ⟨_, hSt, _, hj'⟩ := rejectWork_ok hok
      subst hj'
      have hw := ih.1 (by rw [hSt]; rfl)
      exact ⟨fun _ => hw, nofun⟩
    | approve w signer rating hok =>
      obtain ⟨_, hSt, _, _, hle, hw'⟩ := approveAndPay_ok hok
      subst hw'
      have hw := ih.1 (by rw [hSt]; rfl)
      exact ⟨nofun, fun _ => by show w.escrow - w.job.amount = 0; omega⟩
    | cancel w signer hok =>
      obtain ⟨_, hSt, hle, hw'⟩ := cancelJob_ok hok
      subst hw'
      have hw := ih.1 (by rw [hSt]; rfl)
      exact ⟨nofun, fun _ => by show w.escrow - w.job.amount = 0; omega⟩
    | resolve w config signer pct hok =>
      obtain ⟨_, hSt, _, a, r, hsp, hj', hesc, _, _⟩ := resolveDispute_ok hok
      obtain ⟨hle, hsum⟩ := splitAmounts_ok hsp
      have hw := ih.1 (by rw [hSt]; rfl)
      refine ⟨fun ha => ?_, fun _ => ?_⟩
      · rw [hj'] at ha; cases ha
      · rw [hesc, hw]
        simp only at hle hsum
        omega

/-- Disputed-flag invariant, proved by induction over reachability. -/
lemma disputedFlagAux (w : JobWorld) (h : Reachable w) :
    w.job.disputed = true ↔ w.job.status = JobStatus.Disputed := by
  induction h with
  | created w hc =>
    obtain ⟨now, rq, mi, jid, amt, de, dd, fu, r, hok, hj, he⟩ := hc
    obtain ⟨hst, _, hdis⟩ := createJob_ok_state hok
    rw [hj, hst, hdis]
    exact ⟨nofun, nofun⟩
  | step w w' hr hs ih =>
    cases hs with
    | accept signer j' hok =>
      obtain ⟨hOpen, _, hj'⟩ := acceptJob_ok hok
      subst hj'
      have : w.job.disputed = false := by
        by_contra hx
        have := ih.mp (by revert hx; cases w.job.disputed <;> simp)
        rw [hOpen] at this; cases this
      simp only [this]
      exact ⟨nofun, nofun⟩
    | submit now signer url notes j' hok =>
      obtain ⟨_, _, hSt, _, hj'⟩ := submitDeliverable_ok hok
      subst hj'
      have : w.job.disputed = false := by
        by_contra hx
        have := ih.mp (by revert hx; cases w.job.disputed <;> simp)
        rw [hSt] at this; cases this
      simp only [this]
      exact ⟨nofun, nofun⟩
    | reject signer reason j' hok =>
      obtain ⟨_, hSt, _, hj'⟩ := rejectWork_ok hok
      subst hj'
      exact ⟨fun _ => rfl, fun _ => rfl⟩
    | approve w signer rating hok =>
      obtain ⟨_, hSt, _, _, _, hw'⟩ := approveAndPay_ok hok
      subst hw'
      have : w.job.disputed = false := by
        by_contra hx
        have := ih.mp (by revert hx; cases w.job.disputed <;> simp)
        rw [hSt] at this; cases this
      simp only [this]
      exact ⟨nofun, nofun⟩
    | cancel w signer hok =>
      obtain ⟨_, hSt, _, hw'⟩ := cancelJob_ok hok
      subst hw'
      have : w.job.disputed = false := by
        by_contra hx
        have := ih.mp (by revert hx; cases w.job.disputed <;> simp)
        rw [hSt] at this; cases this
      simp only [this]
      exact ⟨nofun, nofun⟩
    | resolve w config signer pct hok =>
      obtain ⟨_, hSt, _, a, r, hsp, hj', _, _, _⟩ := resolveDispute_ok hok
      rw [hj']
      exact ⟨nofun, nofun⟩

end BasiliskEscrow

namespace BasiliskEscrow

/-- Concrete job used by witnesses: the state produced by
`create_job("J1", 1000, "desc", 7)` at time 100 by requester 1 with mint 5. -/
def jobW : Job :=
  { job_id := "J1", requester := 1, agent := 0, amount := 1000,
    description := "desc", status := JobStatus.Open, created_at := 100,
    deadline := 604900, deliverable := "", disputed := false, rating := 0,
    mint := 5 }

/-- Concrete world holding `jobW` with its freshly funded escrow. -/
def worldW : JobWorld :=
  { job := jobW, escrow := 1000, agentTok := 0, requesterTok := 0 }

/-- The job after agent 2 accepted `jobW`. -/
def jobIP : Job := { jobW with agent := 2, status := JobStatus.InProgress }

/-- World of `jobW` under review after agent 2 submitted "url | notes". -/
def wUR : JobWorld :=
  { job := { jobW with agent := 2, status := JobStatus.UnderReview,
                       deliverable := "url | notes" },
    escrow := 1000, agentTok := 0, requesterTok := 0 }

/-- C1: `resolve_dispute` invoked by any signer other than the arbitrator
stored in `ProgramConfig` fails with `UnauthorizedArbitrator` for every job
status and every percentage — the Anchor constraint on the `arbitrator`
account fires before any handler logic runs.  The `Except.error` result
models the transaction aborting with the job record, the escrow holding and
both payout accounts untouched. -/
theorem resolve_dispute_unauthorized (config : ProgramConfig)
    (signer : Pubkey) (pct : Nat) (w : JobWorld)
    (h : signer ≠ config.arbitrator) :
    resolveDispute config signer pct w =
      Except.error (TxError.escrow EscrowError.UnauthorizedArbitrator) := by
  unfold resolveDispute
  rw [if_neg h]

/-- Witness for C1 at a concrete non-arbitrator signer. -/
theorem resolve_dispute_unauthorized_witness :
    (99 : Pubkey) ≠ (⟨1, 7, 0⟩ : ProgramConfig).arbitrator ∧
    resolveDispute ⟨1, 7, 0⟩ 99 50 worldW =
      Except.error (TxError.escrow EscrowError.UnauthorizedArbitrator) :=
  ⟨by decide,
   resolve_dispute_unauthorized ⟨1, 7, 0⟩ 99 50 worldW (by decide)⟩

/-- C10: `accept_job` imposes no distinctness check between the signer and
`job.requester`: on any Open job with an unset agent, a call signed by the
job's own requester succeeds and installs the requester as agent with status
InProgress. -/
theorem accept_job_self (job : Job) (hOpen : job.status = JobStatus.Open)
    (hUnset : job.agent = pubkeyDefault) :
    acceptJob job.requester job =
      Except.ok { job with agent := job.requester,
                           status := JobStatus.InProgress } := by
  unfold acceptJob
  rw [if_pos hOpen, if_pos hUnset]

/-- Witness for C10: requester 1 self-accepts the concrete open job. -/
theorem accept_job_self_witness :
    acceptJob jobW.requester jobW =
      Except.ok { jobW with agent := jobW.requester,
                            status := JobStatus.InProgress } :=
  accept_job_self jobW rfl rfl

/-- C8: `update_config` succeeds exactly for the stored admin (failing with
`Unauthorized` otherwise); each present optional value replaces the matching
field, each absent one leaves it untouched, and the remaining field `bump`
never changes. -/
theorem update_config_spec (signer : Pubkey)
    (newArbitrator newAdmin : Option Pubkey) (config : ProgramConfig) :
    (signer ≠ config.admin →
       updateConfig signer newArbitrator newAdmin config =
         Except.error EscrowError.Unauthorized) ∧
    (signer = config.admin →
       updateConfig signer newArbitrator newAdmin config =
         Except.ok { admin := newAdmin.getD config.admin,
                     arbitrator := newArbitrator.getD config.arbitrator,
                     bump := config.bump }) := by
  constructor
  · intro h
    unfold updateConfig
    rw [if_neg h]
  · intro h
    unfold updateConfig
    rw [if_pos h]
    cases newArbitrator <;> cases newAdmin <;> rfl

/-- Witness for C8: admin 1 replaces the arbitrator, leaves admin alone. -/
theorem update_config_spec_witness :
    updateConfig 1 (some 9) none ⟨1, 7, 3⟩ =
      Except.ok (⟨1, 9, 3⟩ : ProgramConfig) :=
  (update_config_spec 1 (some 9) none ⟨1, 7, 3⟩).2 rfl

/-- C5: a successful `approve_and_pay` implies status was UnderReview, the
rating lies in 1..5 and the signer is `job.requester`; it moves the full
`job.amount` from the escrow holding to the agent's payout account, sets
status Completed and records the rating, touching nothing else. -/
theorem approve_and_pay_spec (signer : Pubkey) (rating : Nat)
    (w w' : JobWorld) (h : approveAndPay signer rating w = Except.ok w') :
    w.job.status = JobStatus.UnderReview ∧ 1 ≤ rating ∧ rating ≤ 5 ∧
    signer = w.job.requester ∧
    w.job.amount ≤ w.escrow ∧ w'.escrow = w.escrow - w.job.amount ∧
    w'.agentTok = w.agentTok + w.job.amount ∧
    w'.requesterTok = w.requesterTok ∧
    w'.job = { w.job with status := JobStatus.Completed,
                          rating := rating } := by
  obtain ⟨hS, hSt, h1, h5, hle, hw'⟩ := approveAndPay_ok h
  subst hw'
  exact ⟨hSt, h1, h5, hS, hle, rfl, rfl, rfl, rfl⟩

/-- Witness for C5: requester 1 approves the concrete reviewed job with
rating 5 and the agent is paid the full 1000. -/
theorem approve_and_pay_spec_witness :
    wUR.job.status = JobStatus.UnderReview ∧ (1 : Nat) ≤ 5 ∧ (5 : Nat) ≤ 5 ∧
    (1 : Pubkey) = wUR.job.requester ∧
    wUR.job.amount ≤ wUR.escrow ∧
    ({ job := { wUR.job with status := JobStatus.Completed, rating := 5 },
       escrow := 0, agentTok := 1000,
       requesterTok := 0 } : JobWorld).escrow =
      wUR.escrow - wUR.job.amount ∧
    (1000 : Nat) = wUR.agentTok + wUR.job.amount ∧
    (0 : Nat) = wUR.requesterTok ∧
    ({ wUR.job with status := JobStatus.Completed, rating := 5 } : Job) =
      { wUR.job with status := JobStatus.Completed, rating := 5 } := by
  have := approve_and_pay_spec 1 5 wUR
    { job := { wUR.job with status := JobStatus.Completed, rating := 5 },
      escrow := 0, agentTok := 1000, requesterTok := 0 } rfl
  simpa using this

end BasiliskEscrow

namespace BasiliskEscrow

/-- C6: on a job in status InProgress, `submit_deliverable` strictly after
the stored deadline fails (so the job record stays unchanged, still
InProgress — an error return aborts without mutation), and any successful
submission implies the clock was at most `job.deadline`. -/
theorem submit_deliverable_deadline_gate (now : Int) (signer : Pubkey)
    (url notes : String) (job : Job) :
    (job.status = JobStatus.InProgress → job.deadline < now →
       ∃ e, submitDeliverable now signer url notes job = Except.error e) ∧
    (∀ j', submitDeliverable now signer url notes job = Except.ok j' →
       now ≤ job.deadline) := by
  constructor
  · intro _ hLate
    cases hres : submitDeliverable now signer url notes job with
    | error e => exact ⟨e, rfl⟩
    | ok j' =>
      obtain ⟨_, _, _, hDl, _⟩ := submitDeliverable_ok hres
      omega
  · intro j' hok
    exact (submitDeliverable_ok hok).2.2.2.1

/-- Witness for C6: a submission at time 999999 on the concrete in-progress
job (deadline 604900) fails. -/
theorem submit_deliverable_deadline_gate_witness :
    jobIP.status = JobStatus.InProgress ∧ jobIP.deadline < (999999 : Int) ∧
    ∃ e, submitDeliverable 999999 2 "u" "n" jobIP = Except.error e :=
  ⟨rfl, by decide,
   (submit_deliverable_deadline_gate 999999 2 "u" "n" jobIP).1 rfl
     (by decide)⟩

/-- C7: called by the assigned agent, `submit_deliverable(url, notes)` fails
with `DeliverableTooLong` whenever `url ++ " | " ++ notes` exceeds 500
bytes, and on success (hence from InProgress) the stored deliverable equals
exactly that combined string with status UnderReview. -/
theorem submit_deliverable_combined (now : Int) (signer : Pubkey)
    (url notes : String) (job : Job) (hAgent : signer = job.agent) :
    (MAX_DELIVERABLE_LEN < (url ++ " | " ++ notes).utf8ByteSize →
       submitDeliverable now signer url notes job =
         Except.error EscrowError.DeliverableTooLong) ∧
    (∀ j', submitDeliverable now signer url notes job = Except.ok j' →
       job.status = JobStatus.InProgress ∧
       j'.deliverable = url ++ " | " ++ notes ∧
       j'.status = JobStatus.UnderReview) := by
  constructor
  · intro hLen
    unfold submitDeliverable
    rw [if_pos hAgent, if_neg (not_le.mpr hLen)]
  · intro j' hok
    obtain ⟨_, _, hSt, _, hj'⟩ := submitDeliverable_ok hok
    subst hj'
    exact ⟨hSt, rfl, rfl⟩

/-- Witness for C7: agent 2 submits "url"/"notes" in time; the deliverable
comes out as exactly "url | notes" and the job is under review. -/
theorem submit_deliverable_combined_witness :
    jobIP.status = JobStatus.InProgress ∧
    ({ jobIP with deliverable := "url" ++ " | " ++ "notes",
                  status := JobStatus.UnderReview } : Job).deliverable =
      "url" ++ " | " ++ "notes" ∧
    ({ jobIP with deliverable := "url" ++ " | " ++ "notes",
                  status := JobStatus.UnderReview } : Job).status =
      JobStatus.UnderReview :=
  (submit_deliverable_combined 200 2 "url" "notes" jobIP rfl).2
    { jobIP with deliverable := "url" ++ " | " ++ "notes",
                 status := JobStatus.UnderReview } rfl

end BasiliskEscrow

namespace BasiliskEscrow

/-- C2: for every `agent_pct ≤ 100` and `u64` amount, the dispute split
computes `agent_amount = floor(amount * pct / 100)` in the widened `u128`
domain with every checked operation succeeding (no overflow up to
`2^64 - 1`), obtains `requester_amount` by subtraction, and the two parts
sum to `amount` exactly; `agent_pct > 100` makes `resolve_dispute` fail
with `InvalidPercentage`. -/
theorem split_amounts_exact (amount pct : Nat) (hA : amount < U64_MOD) :
    (pct ≤ 100 →
       splitAmounts amount pct =
         Except.ok (amount * pct / 100, amount - amount * pct / 100) ∧
       amount * pct / 100 + (amount - amount * pct / 100) = amount) ∧
    (∀ (config : ProgramConfig) (signer : Pubkey) (w : JobWorld),
       100 < pct → signer = config.arbitrator →
       w.job.status = JobStatus.Disputed →
       resolveDispute config signer pct w =
         Except.error (TxError.escrow EscrowError.InvalidPercentage)) := by
  constructor
  · intro hp
    have h1 : amount * pct ≤ amount * 100 := Nat.mul_le_mul_left _ hp
    have hd := Nat.div_mul_le_self (amount * pct) 100
    have hq : amount * pct / 100 ≤ amount := by omega
    have hmul : amount * pct < U128_MOD := by
      have ha : amount * 100 < U64_MOD * 100 :=
        mul_lt_mul_of_pos_right hA (by norm_num)
      have hb : U64_MOD * 100 < U128_MOD := by norm_num [U64_MOD, U128_MOD]
      omega
    refine ⟨?_, by omega⟩
    have hmod : amount * pct / 100 % U64_MOD = amount * pct / 100 :=
      Nat.mod_eq_of_lt (lt_of_le_of_lt hq hA)
    simp only [splitAmounts, checkedMulU128, checkedDivU128, checkedSubU64,
               hmul, hmod, hq, if_true,
               (by norm_num : ¬ (100 : Nat) = 0), if_false, ite_true,
               ite_false]
  · intro config signer w hp hsig hst
    unfold resolveDispute
    rw [if_pos hsig, if_pos hst, if_neg (by omega : ¬ pct ≤ 100)]

/-- Witness for C2: 1000 split at 70 percent gives 700 and 300. -/
theorem split_amounts_exact_witness :
    (1000 : Nat) < U64_MOD ∧
    (splitAmounts 1000 70 =
       Except.ok (1000 * 70 / 100, 1000 - 1000 * 70 / 100) ∧
     1000 * 70 / 100 + (1000 - 1000 * 70 / 100) = 1000) :=
  ⟨by norm_num [U64_MOD],
   (split_amounts_exact 1000 70 (by norm_num [U64_MOD])).1 (by norm_num)⟩

end BasiliskEscrow

namespace BasiliskEscrow

/-- C4: with a sufficiently funded requester account, `create_job` fails
with `JobIdTooLong`, `DescriptionTooLong`, `ZeroAmount`, or `Overflow`
exactly when the corresponding validation is violated (in source order),
and otherwise allocates the job in status Open with deadline
`created_at + deadline_days * 86400` and escrows exactly `amount` from the
requester's funding account into the new holding.  `deadlineDays ≤ 255`
reflects the `u8` type of the argument. -/
theorem create_job_validation (now : Int) (requester mint : Pubkey)
    (jobId description : String) (amount deadlineDays funding : Nat)
    (hDays : deadlineDays ≤ 255) (hFund : amount ≤ funding) :
    (MAX_JOB_ID_LEN < jobId.utf8ByteSize →
       createJob now requester mint jobId amount description deadlineDays
           funding =
         Except.error (TxError.escrow EscrowError.JobIdTooLong)) ∧
    (jobId.utf8ByteSize ≤ MAX_JOB_ID_LEN →
     MAX_DESCRIPTION_LEN < description.utf8ByteSize →
       createJob now requester mint jobId amount description deadlineDays
           funding =
         Except.error (TxError.escrow EscrowError.DescriptionTooLong)) ∧
    (jobId.utf8ByteSize ≤ MAX_JOB_ID_LEN →
     description.utf8ByteSize ≤ MAX_DESCRIPTION_LEN → amount = 0 →
       createJob now requester mint jobId amount description deadlineDays
           funding =
         Except.error (TxError.escrow EscrowError.ZeroAmount)) ∧
    (jobId.utf8ByteSize ≤ MAX_JOB_ID_LEN →
     description.utf8ByteSize ≤ MAX_DESCRIPTION_LEN → 0 < amount →
     ¬(I64_MIN ≤ now + (deadlineDays : Int) * 86400 ∧
       now + (deadlineDays : Int) * 86400 < I64_TOP) →
       createJob now requester mint jobId amount description deadlineDays
           funding =
         Except.error (TxError.escrow EscrowError.Overflow)) ∧
    (jobId.utf8ByteSize ≤ MAX_JOB_ID_LEN →
     description.utf8ByteSize ≤ MAX_DESCRIPTION_LEN → 0 < amount →
     I64_MIN ≤ now + (deadlineDays : Int) * 86400 →
     now + (deadlineDays : Int) * 86400 < I64_TOP →
       createJob now requester mint jobId amount description deadlineDays
           funding =
         Except.ok
           { job := { job_id := jobId, requester := requester,
                      agent := pubkeyDefault, amount := amount,
                      description := description, status := JobStatus.Open,
                      created_at := now,
                      deadline := now + (deadlineDays : Int) * 86400,
                      deliverable := "", disputed := false, rating := 0,
                      mint := mint }
             funding := funding - amount
             escrow := amount }) := by
  have hd : (deadlineDays : Int) ≤ 255 := by exact_mod_cast hDays
  have hd0 : (0 : Int) ≤ (deadlineDays : Int) := Int.natCast_nonneg _
  have hMul : checkedMulI64 (deadlineDays : Int) 86400 =
      some ((deadlineDays : Int) * 86400) := by
    unfold checkedMulI64
    rw [if_pos]
    constructor
    · simp only [I64_MIN]; nlinarith
    · simp only [I64_TOP]; nlinarith
  refine ⟨fun h1 => ?_, fun h1 h2 => ?_, fun h1 h2 h3 => ?_,
          fun h1 h2 h3 h4 => ?_, fun h1 h2 h3 h4 h5 => ?_⟩
  · unfold createJob
    rw [if_neg (not_le.mpr h1)]
  · unfold createJob
    rw [if_pos h1, if_neg (not_le.mpr h2)]
  · unfold createJob
    rw [if_pos h1, if_pos h2, if_neg (by omega)]
  · have hAdd : checkedAddI64 now ((deadlineDays : Int) * 86400) = none := by
      unfold checkedAddI64
      rw [if_neg h4]
    unfold createJob
    rw [if_pos h1, if_pos h2, if_pos h3]
    simp only [hMul, hAdd]
  · have hAdd : checkedAddI64 now ((deadlineDays : Int) * 86400) =
        some (now + (deadlineDays : Int) * 86400) := by
      unfold checkedAddI64
      rw [if_pos ⟨h4, h5⟩]
    have htr : tokenTransfer funding 0 amount =
        Except.ok (funding - amount, 0 + amount) := by
      unfold tokenTransfer
      rw [if_pos hFund]
    unfold createJob
    rw [if_pos h1, if_pos h2, if_pos h3]
    simp only [hMul, hAdd, htr, Nat.zero_add]

/-- Witness for C4: the concrete round-trip creation
`create_job("J1", 1000, "desc", 7)` at time 100 funded with 1500. -/
theorem create_job_validation_witness :
    (7 : Nat) ≤ 255 ∧ (1000 : Nat) ≤ 1500 ∧
    createJob 100 1 5 "J1" 1000 "desc" 7 1500 =
      Except.ok
        { job := { job_id := "J1", requester := 1, agent := pubkeyDefault,
                   amount := 1000, description := "desc",
                   status := JobStatus.Open, created_at := 100,
                   deadline := 100 + (7 : Int) * 86400, deliverable := "",
                   disputed := false, rating := 0, mint := 5 }
          funding := 500
          escrow := 1000 } :=
  ⟨by norm_num, by norm_num,
   (create_job_validation 100 1 5 "J1" "desc" 1000 7 1500 (by norm_num)
       (by norm_num)).2.2.2.2 (by decide) (by decide) (by norm_num)
     (by norm_num [I64_MIN]) (by norm_num [I64_TOP])⟩

end BasiliskEscrow

namespace BasiliskEscrow

/-- C3: in every reachable job world the escrow holding's balance equals
`job.amount` while the status is active (Open, InProgress, UnderReview,
Disputed) and 0 once it is terminal (Completed, Cancelled, Resolved);
moreover any single step that changes the holding at all leaves the job in
a terminal status with the holding drained to exactly zero — and by the
shape of `Step`, only `approve_and_pay`, `cancel_job` and `resolve_dispute`
can be such steps. -/
theorem escrow_holding_balance_invariant (w : JobWorld)
    (h : Reachable w) :
    ((isActiveStatus w.job.status = true → w.escrow = w.job.amount) ∧
     (isTerminalStatus w.job.status = true → w.escrow = 0)) ∧
    (∀ w', Step w w' → w'.escrow ≠ w.escrow →
       isTerminalStatus w'.job.status = true ∧ w'.escrow = 0) := by
  refine ⟨escrowBalanceAux w h, fun w' hs hne => ?_⟩
  have h' := escrowBalanceAux w' (Reachable.step w w' h hs)
  cases hs with
  | accept signer j' hok => exact absurd rfl hne
  | submit now signer url notes j' hok => exact absurd rfl hne
  | reject signer reason j' hok => exact absurd rfl hne
  | approve w signer rating hok =>
    obtain ⟨_, _, _, _, _, hw'⟩ := approveAndPay_ok hok
    subst hw'
    exact ⟨rfl, h'.2 rfl⟩
  | cancel w signer hok =>
    obtain ⟨_, _, _, hw'⟩ := cancelJob_ok hok
    subst hw'
    exact ⟨rfl, h'.2 rfl⟩
  | resolve w config signer pct hok =>
    obtain ⟨_, _, _, a, r, _, hj', _, _, _⟩ := resolveDispute_ok hok
    have ht : isTerminalStatus w'.job.status = true := by rw [hj']; rfl
    exact ⟨ht, h'.2 ht⟩

/-- Witness for C3 at the concrete freshly created world. -/
theorem escrow_holding_balance_invariant_witness :
    ((isActiveStatus worldW.job.status = true →
        worldW.escrow = worldW.job.amount) ∧
     (isTerminalStatus worldW.job.status = true → worldW.escrow = 0)) ∧
    (∀ w', Step worldW w' → w'.escrow ≠ worldW.escrow →
       isTerminalStatus w'.job.status = true ∧ w'.escrow = 0) :=
  escrow_holding_balance_invariant worldW
    (Reachable.created worldW
      ⟨100, 1, 5, "J1", 1000, "desc", 7, 1500, ⟨jobW, 500, 1000⟩,
       rfl, rfl, rfl⟩)

/-- C9: in every reachable job world the `disputed` flag is set exactly when
the status is Disputed: `create_job` starts it false with status Open,
`reject_work` sets it together with status Disputed, `resolve_dispute`
clears it together with status Resolved, and no other instruction breaks
the correspondence. -/
theorem disputed_iff_status_disputed (w : JobWorld) (h : Reachable w) :
    w.job.disputed = true ↔ w.job.status = JobStatus.Disputed :=
  disputedFlagAux w h

/-- Witness for C9 at the concrete freshly created world. -/
theorem disputed_iff_status_disputed_witness :
    worldW.job.disputed = true ↔
      worldW.job.status = JobStatus.Disputed :=
  disputed_iff_status_disputed worldW
    (Reachable.created worldW
      ⟨100, 1, 5, "J1", 1000, "desc", 7, 1500, ⟨jobW, 500, 1000⟩,
       rfl, rfl, rfl⟩)

end BasiliskEscrow
